/-
Verification development for the halo-exchange example program
(`ExchangeHalos`): a driver that loads a partitioned mesh, builds ghost
layers, creates scalar/vector tags, sets analytical values on owned
entities, and exchanges tag data between ranks.

The file embeds, as Lean definitions:
  * the driver's sequence of core operations (Driver.cpp `main`),
  * `RuntimeContext::load_file` (read-option / file-type dispatch),
  * `RuntimeContext::timer_push` / `timer_pop` / `last_elapsed`,
  * `evaluate_function`, `compute_centroids`, and the tag-value
    generation of `RuntimeContext::create_sv_tags`,
  * the tag store and exchange engine of the underlying parallel mesh
    library, which are not part of this repository's sources and are
    therefore modelled from the specification.
-/
import Mathlib

/-! ## Driver operation trace (Driver.cpp, `main`) -/

/-- The core operations invoked by the driver (`Driver.cpp`, `main`), in the
order they occur.  `exchangeGhostCells k` records the call
`exchange_ghost_cells(dim, dim-1, k, 0, true, true, fileset)` made for
`k = ighost + 1` in the setup loop. -/
inductive DriverOp where
  | loadFile : DriverOp
  | exchangeGhostCells (num_layers : Nat) : DriverOp
  | correctThinGhostLayers : DriverOp
  | getOwnedEntities : DriverOp
  | createSvTags : DriverOp
  | writeFilePre : DriverOp
  | exchangeScalarTag : DriverOp
  | exchangeVectorTag : DriverOp
  | writeFilePost : DriverOp
  | writeFileFinal : DriverOp
  deriving DecidableEq, Repr

/-- The ghost-layer setup loop of `Driver.cpp` (lines 87-107): for
`ighost = 0 .. ghost_layers-1`, call `exchange_ghost_cells` asking for
`ighost + 1` layers, and, when `ighost < ghost_layers - 1`, follow it with
`correct_thin_ghost_layers`. -/
def ghostLoop (ghost_layers : Nat) : List DriverOp :=
  ((List.range ghost_layers).map fun ighost =>
    [DriverOp.exchangeGhostCells (ighost + 1)] ++
      (if ighost < ghost_layers - 1 then [DriverOp.correctThinGhostLayers] else [])).flatten

/-- The full trace of core operations performed by `main` in `Driver.cpp`,
as a function of the run configuration: `ghost_layers`, `num_max_exchange`,
`debug_output` and the rank `proc_id`.  The pre/post snapshot writes happen
only when `debug_output` is set and on rank 0; the final parallel write
happens on every rank when `debug_output` is set. -/
def driverTrace (ghost_layers num_max_exchange : Nat) (debug_output : Bool)
    (proc_id : Nat) : List DriverOp :=
  [DriverOp.loadFile] ++ ghostLoop ghost_layers ++
    [DriverOp.getOwnedEntities, DriverOp.createSvTags] ++
    (if debug_output ∧ proc_id = 0 then [DriverOp.writeFilePre] else []) ++
    List.replicate num_max_exchange DriverOp.exchangeScalarTag ++
    List.replicate num_max_exchange DriverOp.exchangeVectorTag ++
    (if debug_output ∧ proc_id = 0 then [DriverOp.writeFilePost] else []) ++
    (if debug_output then [DriverOp.writeFileFinal] else [])

/-- Is the operation a ghost-construction call? -/
def isGhostCall : DriverOp → Bool
  | DriverOp.exchangeGhostCells _ => true
  | _ => false

/-- Is the operation one of the two tag-exchange calls? -/
def isTagExchange : DriverOp → Bool
  | DriverOp.exchangeScalarTag => true
  | DriverOp.exchangeVectorTag => true
  | _ => false

/-- Phase number of each driver operation: the driver performs its
operations in nondecreasing phase order. -/
def phase : DriverOp → Nat
  | DriverOp.loadFile => 0
  | DriverOp.exchangeGhostCells _ => 1
  | DriverOp.correctThinGhostLayers => 1
  | DriverOp.getOwnedEntities => 2
  | DriverOp.createSvTags => 3
  | DriverOp.writeFilePre => 4
  | DriverOp.exchangeScalarTag => 5
  | DriverOp.exchangeVectorTag => 6
  | DriverOp.writeFilePost => 7
  | DriverOp.writeFileFinal => 8

/-! ## `RuntimeContext::load_file` (ExchangeHalos.cpp, lines 74-112) -/

/-- Outcome of the option-dispatch logic of `RuntimeContext::load_file`:
either the function returns `MB_UNSUPPORTED_OPERATION` without touching the
file, or it goes on to call the library's `load_file` with the computed
read options. -/
inductive LoadResult where
  | unsupported : LoadResult
  | attemptLoad (read_options : String) : LoadResult
  deriving DecidableEq, Repr

/-- Index of the last occurrence of `c` in `l` (the embedding of
`std::string::rfind`), or `none` when absent. -/
def rfindIdx (c : Char) (l : List Char) : Option Nat :=
  match l with
  | [] => none
  | x :: xs =>
    match rfindIdx c xs with
    | some j => some (j + 1)
    | none => if x = c then some 0 else none

/-- Embedding of `RuntimeContext::load_file` (ExchangeHalos.cpp, lines 74-112): build the
read-option string.  Only when more than one process is running and the
filename contains a dot is the extension examined; `nc` and `h5m` get their
parallel options, anything else returns `MB_UNSUPPORTED_OPERATION`.
Otherwise the file is loaded with just the base options. -/
def load_file (num_procs ghost_layers : Nat) (load_ghosts : Bool)
    (input_filename : String) : LoadResult :=
  let base := "DEBUG_IO=0;"
  match rfindIdx '.' input_filename.toList, decide (1 < num_procs) with
  | some idx, true =>
    let extension := String.mk (input_filename.toList.drop (idx + 1))
    if extension = "nc" then
      LoadResult.attemptLoad (base ++ "PARALLEL=READ_PART;PARTITION_METHOD=RCBZOLTAN;PARALLEL_RESOLVE_SHARED_ENTS;NO_EDGES;NO_MIXED_ELEMENTS;VARIABLE=;")
    else if extension = "h5m" then
      LoadResult.attemptLoad (base ++ "PARALLEL=READ_PART;PARTITION=PARALLEL_PARTITION;PARALLEL_RESOLVE_SHARED_ENTS;" ++
        (if load_ghosts then "PARALLEL_THIN_GHOST_LAYER;PARALLEL_GHOSTS=2.1." ++ toString ghost_layers ++ ";" else ""))
    else LoadResult.unsupported
  | _, _ => LoadResult.attemptLoad base

/-! ## Timer state (ExchangeHalos.hpp, lines 119-156) -/

/-- The timing-related state of `RuntimeContext`: `last_counter` starts at
`0.0`, `mTimerOps` at `0.0`, `mOpName` empty. -/
structure TimerCtx where
  proc_id : Nat
  num_procs : Nat
  last_counter : ℚ
  mTimerOps : ℚ
  mOpName : String
  deriving DecidableEq, Repr

/-- Freshly constructed `RuntimeContext` timing state for a given rank. -/
def initTimerCtx (pid np : Nat) : TimerCtx :=
  { proc_id := pid, num_procs := np, last_counter := 0, mTimerOps := 0, mOpName := "" }

/-- Embedding of `RuntimeContext::timer_push`: record the current time and the operation
name.  `now` stands for `mTimer.time_since_birth()`. -/
def timer_push (s : TimerCtx) (now : ℚ) (operation : String) : TimerCtx :=
  { s with mTimerOps := now, mOpName := operation }

/-- Embedding of `RuntimeContext::timer_pop`: the local elapsed time `now - mTimerOps`
feeds two `MPI_Reduce` calls whose root-rank results are `maxElapsed` and
`avgElapsed` (modelled as inputs, since they aggregate over all ranks).
Only rank 0 stores `maxElapsed / nruns` into `last_counter`; every rank
clears `mOpName`. -/
def timer_pop (s : TimerCtx) (now maxElapsed avgElapsed : ℚ) (nruns : Nat) : TimerCtx :=
  let locElapsed := now - s.mTimerOps
  let _ := locElapsed
  if s.proc_id = 0 then
    { s with last_counter := maxElapsed / (nruns : ℚ), mOpName := "" }
  else
    { s with mOpName := "" }

/-- Embedding of `RuntimeContext::last_elapsed`: return `last_counter`. -/
def last_elapsed (s : TimerCtx) : ℚ :=
  s.last_counter

/-- One `timer_push` / `timer_pop` cycle, with all timer and reduction
inputs bundled: (operation name, push time, pop time, maxElapsed,
avgElapsed, nruns). -/
def timerCycle (s : TimerCtx) (c : String × ℚ × ℚ × ℚ × ℚ × Nat) : TimerCtx :=
  timer_pop (timer_push s c.2.1 c.1) c.2.2.1 c.2.2.2.1 c.2.2.2.2.1 c.2.2.2.2.2

/-! ## Tag store

The tag store itself (`tag_get_handle` with `MB_TAG_CREAT`, `tag_set_data`)
lives in the wrapped mesh library, not in this repository's sources; it is
modelled from the specification (section 4.3). -/

/-- One registered tag: name, width, per-component default values, handle. -/
structure TagEntry where
  name : String
  width : Nat
  default_value : List ℝ
  handle : Nat

/-- Modelled from the spec: the Tag Store (section 4.3) of the underlying
mesh library, which is not part of this repository's sources.  It keeps a
list of registered tags and a counter for fresh handles. -/
structure TagStore where
  tags : List TagEntry
  nextHandle : Nat

/-- Result of `create_tag`: a handle together with the (possibly updated)
store, or a configuration error. -/
inductive TagResult where
  | ok (handle : Nat) (store : TagStore) : TagResult
  | configError : TagResult

/-- Modelled from the spec: `create_tag(name, width, default_value)` of the
Tag Store (section 4.3), the library operation behind `tag_get_handle` with
`MB_TAG_CREAT`.  Re-declaring an existing name with the same width returns
the existing handle; with a differing width it is a configuration error; a
fresh name registers a new tag under a fresh handle. -/
def create_tag (ts : TagStore) (name : String) (width : Nat)
    (default_value : List ℝ) : TagResult :=
  match ts.tags.find? (fun t => t.name == name) with
  | some t => if t.width = width then TagResult.ok t.handle ts else TagResult.configError
  | none =>
    TagResult.ok ts.nextHandle
      { tags := { name := name, width := width, default_value := default_value,
                  handle := ts.nextHandle } :: ts.tags,
        nextHandle := ts.nextHandle + 1 }

/-! ## Analytical field values (ExchangeHalos.cpp, lines 8-72 and 114-138) -/

/-- Embedding of `evaluate_function(lon, lat, type, multiplier)` (ExchangeHalos.cpp,
lines 8-17): `type = 1` gives `(2 + sin(2 lat)^16 * cos(16 lon)) * multiplier`;
every other type takes the `default` branch
`(2 + cos(lon)^2 * cos(2 lat)) * multiplier`. -/
noncomputable def evaluate_function (lon lat : ℝ) (type : ℤ) (multiplier : ℝ) : ℝ :=
  if type = 1 then (2 + (Real.sin (2 * lat)) ^ 16 * Real.cos (16 * lon)) * multiplier
  else (2 + Real.cos lon * Real.cos lon * Real.cos (2 * lat)) * multiplier

/-- The C library `atan2`, written through the complex argument:
`atan2 y x = arg (x + y i)`, with the same `(-pi, pi]` convention. -/
noncomputable def atan2 (y x : ℝ) : ℝ :=
  Complex.arg (Complex.mk x y)

/-- One step of `RuntimeContext::compute_centroids` (ExchangeHalos.cpp,
lines 119-136): fetch the entity's coordinates — on failure `runchk_cont`
only logs and CONTINUES, leaving `node` at its previous (stale) value —
normalise onto the unit sphere and transform to `(lon, lat)`. -/
noncomputable def centroidStep (get_coords : Nat → Option (ℝ × ℝ × ℝ))
    (node : ℝ × ℝ × ℝ) (entity : Nat) : (ℝ × ℝ × ℝ) × (ℝ × ℝ) :=
  let node := match get_coords entity with
    | some c => c
    | none => node
  let magnitude := Real.sqrt (node.1 * node.1 + node.2.1 * node.2.1 + node.2.2 * node.2.2)
  let node := (node.1 / magnitude, node.2.1 / magnitude, node.2.2 / magnitude)
  let lon := atan2 node.2.1 node.1
  let lon := if lon < 0 then lon + 2 * Real.pi else lon
  ((node.1, node.2.1, node.2.2), (lon, Real.arcsin node.2.2))

/-- Embedding of `RuntimeContext::compute_centroids` (ExchangeHalos.cpp, lines 114-138):
flat `[lon, lat]` list, two entries per entity.  The signature mirrors the
source: the return type is a plain vector with NO error channel (coordinate
lookups failing inside are only logged by `runchk_cont`); `node0` is the
content of the stack buffer `node` before the first lookup. -/
noncomputable def compute_centroids (get_coords : Nat → Option (ℝ × ℝ × ℝ))
    (node0 : ℝ × ℝ × ℝ) (entities : List Nat) : List ℝ :=
  match entities with
  | [] => []
  | e :: rest =>
    let step := centroidStep get_coords node0 e
    step.2.1 :: step.2.2 :: compute_centroids get_coords step.1 rest

/-- The scalar tag values generated in `create_sv_tags` (ExchangeHalos.cpp,
lines 35-45): `std::generate` with a static counter writes, at position `i`
of a buffer of length `n`, `evaluate_function(entCoords[2 i], entCoords[2 i + 1])`
(with the default arguments `type = 1`, `multiplier = 1.0`). -/
noncomputable def scalarTagValues (entCoords : List ℝ) (n : Nat) : List ℝ :=
  (List.range n).map fun i =>
    evaluate_function (entCoords.getD (2 * i) 0) (entCoords.getD (2 * i + 1) 0) 1 1

/-- The vector tag values generated in `create_sv_tags` (ExchangeHalos.cpp,
lines 57-69): at flat position `p` of a buffer of length `n * veclength`,
the generator reads `offset = (p / veclength) * 2` (from `index++`, the OLD
counter value) and multiplier `(p + 1) % veclength + 1.0` (the counter has
already been incremented when `index % veclength` is read), calling
`evaluate_function(entCoords[offset], entCoords[offset+1], 2, multiplier)`. -/
noncomputable def vectorTagValues (entCoords : List ℝ) (n veclength : Nat) : List ℝ :=
  (List.range (n * veclength)).map fun p =>
    evaluate_function (entCoords.getD (p / veclength * 2) 0)
      (entCoords.getD (p / veclength * 2 + 1) 0) 2 (((p + 1) % veclength : Nat) + 1)

/-- Default `scalar_tagname` from from the `RuntimeContext` constructor. -/
def scalar_tagname : String := "scalar_variable"

/-- Default `vector_tagname` from from the `RuntimeContext` constructor. -/
def vector_tagname : String := "vector_variable"

/-- Constant `defSTagValue` in `create_sv_tags`: the scalar tag default. -/
noncomputable def defSTagValue : ℝ := -1

/-- Error kinds surfaced by the embedded operations. -/
inductive ErrCode where
  | MB_FAILURE : ErrCode
  | MB_UNSUPPORTED_OPERATION : ErrCode
  deriving DecidableEq, Repr

/-- Embedding of `RuntimeContext::create_sv_tags` (ExchangeHalos.cpp, lines 19-72):
compute centroids (note: through a channel with no error reporting), create
the scalar tag with default `-1.0` and width 1 and set its per-entity
values, then create the vector tag with default `-1.0` per component and
width `vector_length` and set its values.  Only the `runchk`-guarded tag
operations can surface an error to the caller. -/
noncomputable def create_sv_tags (ts : TagStore) (vector_length : Nat)
    (get_coords : Nat → Option (ℝ × ℝ × ℝ)) (node0 : ℝ × ℝ × ℝ)
    (entities : List Nat) :
    Except ErrCode (TagStore × Nat × Nat × List ℝ × List ℝ) :=
  let entCoords := compute_centroids get_coords node0 entities
  match create_tag ts scalar_tagname 1 [defSTagValue] with
  | TagResult.configError => Except.error ErrCode.MB_FAILURE
  | TagResult.ok tagScalar ts1 =>
    let sValues := scalarTagValues entCoords entities.length
    match create_tag ts1 vector_tagname vector_length
        (List.replicate vector_length defSTagValue) with
    | TagResult.configError => Except.error ErrCode.MB_FAILURE
    | TagResult.ok tagVector ts2 =>
      let vValues := vectorTagValues entCoords entities.length vector_length
      Except.ok (ts2, tagScalar, tagVector, sValues, vValues)

/-- Constructor discriminator for `Except` results. -/
def isOkE {α β : Type} : Except α β → Bool
  | Except.ok _ => true
  | Except.error _ => false

/-! ## Exchange engine

`ParallelComm::exchange_tags` lives in the wrapped mesh library, not in
this repository's sources; it is modelled from the specification
(section 4.4): owners pack per-destination buffers of values for entities
the destination also holds, buffers are delivered, and receivers unpack
them into the local copy's tag slot. -/

/-- Modelled from the spec: the distributed state the Exchange Engine acts
on (sections 2-3).  `entities` is the global entity store, `ranks` the
process ranks, `owner e` the canonical owning rank of `e`, `holds r e`
whether rank `r` has a (owned, shared or ghost) copy of `e`, and
`value r e` the tag value rank `r` currently holds for `e`. -/
structure HaloMesh (V : Type) where
  entities : List Nat
  ranks : List Nat
  owner : Nat → Nat
  holds : Nat → Nat → Bool
  value : Nat → Nat → V

/-- Modelled from the spec: step 1 of the exchange protocol (section 4.4),
the buffer rank `o` packs for destination rank `r`: one `(entity, value)`
pair for every entity of the set `S` that `o` owns and `r` holds as a
non-owning copy. -/
def packFor {V : Type} (m : HaloMesh V) (S : Nat → Bool) (o r : Nat) :
    List (Nat × V) :=
  (m.entities.filter fun e => S e && (m.owner e == o) && m.holds r e && (r != o)).map
    fun e => (e, m.value o e)

/-- Modelled from the spec: step 4 of the exchange protocol (section 4.4),
unpacking one received buffer into the local tag slots, entry by entry. -/
def applyBuffer {V : Type} (val : Nat → V) (buf : List (Nat × V)) : Nat → V :=
  buf.foldl (fun acc p => fun x => if x = p.1 then p.2 else acc x) val

/-- Modelled from the spec: `exchange(tag, S)` (section 4.4).  Every rank
receives the buffer packed for it by every rank and unpacks them all; the
call returns only after all transfers complete, so the result is the state
with all received buffers applied. -/
def exchange {V : Type} (S : Nat → Bool) (m : HaloMesh V) : HaloMesh V :=
  { m with value := fun r => (m.ranks.map fun o => packFor m S o r).foldl applyBuffer (m.value r) }

/-- A mesh with no ghost or shared non-owner copies: every copy a rank
holds is its own. -/
def ownedOnly {V : Type} (m : HaloMesh V) : Prop :=
  ∀ r e, m.holds r e = true → m.owner e = r

/-! ## Helper lemmas -/

section Helpers

/-- Counting ghost-construction calls in a fully corrected block list. -/
theorem countP_ghost_blocks (l : List Nat) :
    (((l.map fun i =>
        [DriverOp.exchangeGhostCells (i + 1), DriverOp.correctThinGhostLayers]).flatten).countP
      isGhostCall) = l.length := by
  induction l with
  | nil => rfl
  | cons a t ih =>
    simp only [List.map_cons, List.flatten_cons, List.countP_append, ih, List.countP_cons]
    simp [isGhostCall, Nat.add_comm]

/-- Counting thin-layer corrections in a fully corrected block list. -/
theorem countP_correct_blocks (l : List Nat) :
    (((l.map fun i =>
        [DriverOp.exchangeGhostCells (i + 1), DriverOp.correctThinGhostLayers]).flatten).countP
      fun x => decide (x = DriverOp.correctThinGhostLayers)) = l.length := by
  induction l with
  | nil => rfl
  | cons a t ih =>
    simp only [List.map_cons, List.flatten_cons, List.countP_append, ih, List.countP_cons]
    simp [Nat.add_comm]

end Helpers

/-- Claim C2: For every requested ghost depth `d ≥ 1`, the setup phase of
`Driver.cpp` performs exactly `d` `exchange_ghost_cells` calls, requesting
`1, 2, ..., d` layers in order, with a `correct_thin_ghost_layers` call
after each of the first `d - 1` of them and none after the last. -/
theorem ghost_setup_layer_trace (d : Nat) (hd : 1 ≤ d) :
    ghostLoop d =
      (((List.range (d - 1)).map fun i =>
        [DriverOp.exchangeGhostCells (i + 1), DriverOp.correctThinGhostLayers]).flatten) ++
        [DriverOp.exchangeGhostCells d] ∧
    (ghostLoop d).countP isGhostCall = d ∧
    ((ghostLoop d).countP fun x => decide (x = DriverOp.correctThinGhostLayers)) = d - 1 := by
  obtain ⟨k, rfl⟩ : ∃ k, d = k + 1 := ⟨d - 1, (Nat.succ_pred_eq_of_pos hd).symm⟩
  have hmain : ghostLoop (k + 1) =
      (((List.range k).map fun i =>
        [DriverOp.exchangeGhostCells (i + 1), DriverOp.correctThinGhostLayers]).flatten) ++
        [DriverOp.exchangeGhostCells (k + 1)] := by
    unfold ghostLoop
    rw [List.range_succ, List.map_append, List.flatten_append]
    have hcong : (List.range k).map (fun ighost =>
        [DriverOp.exchangeGhostCells (ighost + 1)] ++
          (if ighost < k + 1 - 1 then [DriverOp.correctThinGhostLayers] else [])) =
        (List.range k).map fun i =>
          [DriverOp.exchangeGhostCells (i + 1), DriverOp.correctThinGhostLayers] := by
      apply List.map_congr_left
      intro a ha
      have hak : a < k := List.mem_range.mp ha
      simp [hak]
    rw [hcong]
    simp
  refine ⟨hmain, ?_, ?_⟩
  · rw [hmain, List.countP_append, countP_ghost_blocks]
    simp [isGhostCall, List.length_range]
  · rw [hmain, List.countP_append, countP_correct_blocks]
    simp [List.length_range]

/-- Witness for C2 at depth 2: layer calls for 1 and 2 layers, one
correction in between, none at the end. -/
theorem ghost_setup_layer_trace_witness :
    ghostLoop 2 = [DriverOp.exchangeGhostCells 1, DriverOp.correctThinGhostLayers,
      DriverOp.exchangeGhostCells 2] ∧
    (ghostLoop 2).countP isGhostCall = 2 ∧
    ((ghostLoop 2).countP fun x => decide (x = DriverOp.correctThinGhostLayers)) = 1 :=
  ghost_setup_layer_trace 2 (by decide)

/-! ## Exchange-engine lemmas -/

/-- Unpacking a buffer with no entry for `e` leaves `e`'s slot unchanged. -/
theorem applyBuffer_of_no_key {V : Type} (val : Nat → V) (buf : List (Nat × V)) (e : Nat)
    (h : ∀ p ∈ buf, p.1 ≠ e) : applyBuffer val buf e = val e := by
  induction buf generalizing val with
  | nil => rfl
  | cons p t ih =>
    show applyBuffer (fun x => if x = p.1 then p.2 else val x) t e = val e
    rw [ih _ fun q hq => h q (List.mem_cons_of_mem _ hq)]
    exact if_neg fun hc => (h p (List.mem_cons_self _ _)) hc.symm

/-- Unpacking buffers none of which mention `e` leaves `e`'s slot unchanged. -/
theorem foldl_applyBuffer_of_no_key {V : Type} (bufs : List (List (Nat × V)))
    (val : Nat → V) (e : Nat) (h : ∀ b ∈ bufs, ∀ p ∈ b, p.1 ≠ e) :
    bufs.foldl applyBuffer val e = val e := by
  induction bufs generalizing val with
  | nil => rfl
  | cons b t ih =>
    show t.foldl applyBuffer (applyBuffer val b) e = val e
    rw [ih _ fun b2 hb2 => h b2 (List.mem_cons_of_mem _ hb2)]
    exact applyBuffer_of_no_key val b e (h b (List.mem_cons_self _ _))

/-- Claim C3: When the requested ghost depth is 0, the setup loop of
`Driver.cpp` makes no `exchange_ghost_cells` and no
`correct_thin_ghost_layers` call, and on a mesh whose copies are all owned
copies (no ghosts anywhere) `exchange` is a no-op that returns the state
unchanged (every packed buffer is empty, so there is nothing to wait on). -/
theorem depth_zero_noop {V : Type} (m : HaloMesh V) (S : Nat → Bool)
    (h : ownedOnly m) :
    ghostLoop 0 = [] ∧ exchange S m = m := by
  refine ⟨rfl, ?_⟩
  have hbuf : ∀ o r, packFor m S o r = [] := by
    intro o r
    unfold packFor
    have hfil : (m.entities.filter fun e =>
        S e && (m.owner e == o) && m.holds r e && (r != o)) = [] := by
      rw [List.filter_eq_nil_iff]
      intro e _ hc
      simp only [Bool.and_eq_true, beq_iff_eq, bne_iff_ne, ne_eq] at hc
      exact hc.2 ((h r e hc.1.2).symm.trans hc.1.1.2)
    rw [hfil]
    rfl
  have hval : ∀ r, (m.ranks.map fun o => packFor m S o r).foldl applyBuffer (m.value r) = m.value r := by
    intro r
    funext e
    apply foldl_applyBuffer_of_no_key
    intro b hb p hp
    rcases List.mem_map.mp hb with ⟨o, _, rfl⟩
    rw [hbuf o r] at hp
    cases hp
  show { m with value := _ } = m
  cases m with
  | mk ents rks ow hl vl =>
    simp only [HaloMesh.mk.injEq, true_and]
    funext r
    exact hval r

/-- A one-rank, one-entity mesh with no ghost copies, used as a concrete
input for the exchange no-op witness. -/
def ownedMeshW : HaloMesh Int :=
  { entities := [0], ranks := [0], owner := fun _ => 0,
    holds := fun r e => decide (r = 0 ∧ e = 0), value := fun _ _ => 7 }

/-- Witness for C3: on a concrete ghost-free mesh, depth 0 produces no
setup calls and the exchange leaves the state untouched. -/
theorem depth_zero_noop_witness :
    ghostLoop 0 = [] ∧ exchange (fun _ => true) ownedMeshW = ownedMeshW := by
  have h := depth_zero_noop ownedMeshW (fun _ => true) ?_
  · exact h
  · intro r e he
    simp only [ownedMeshW, decide_eq_true_eq] at he
    simp [ownedMeshW, he.1]

/-- Claim C4, counterexample: On a single process, `load_file` never
examines the extension: for `mesh.txt` (extension neither `nc` nor `h5m`)
it does NOT return the unsupported-file-type error but goes on to attempt
the load with the base read options. -/
theorem load_file_txt_single_proc_loads :
    load_file 1 3 false "mesh.txt" = LoadResult.attemptLoad "DEBUG_IO=0;" ∧
    load_file 1 3 false "mesh.txt" ≠ LoadResult.unsupported := by
  exact ⟨rfl, by decide⟩

/-- Claim C4, amended: When more than one process is running and the
filename contains a `'.'`, an extension that is neither `nc` nor `h5m`
makes `load_file` return the unsupported-file-type configuration error
without attempting to load the file. -/
theorem load_file_unsupported_ext (np gl : Nat) (lg : Bool) (fname : String)
    (idx : Nat) (hnp : 1 < np)
    (hidx : rfindIdx '.' fname.toList = some idx)
    (hnc : String.mk (fname.toList.drop (idx + 1)) ≠ "nc")
    (hh5m : String.mk (fname.toList.drop (idx + 1)) ≠ "h5m") :
    load_file np gl lg fname = LoadResult.unsupported := by
  unfold load_file
  simp only [hidx, decide_eq_true hnp]
  rw [if_neg hnc, if_neg hh5m]

/-- Witness for the amended C4: two processes, filename `mesh.txt`. -/
theorem load_file_unsupported_ext_witness :
    load_file 2 3 false "mesh.txt" = LoadResult.unsupported :=
  load_file_unsupported_ext 2 3 false "mesh.txt" 4 (by decide) (by decide)
    (by decide) (by decide)

/-! ## Timer lemmas -/

/-- Push/pop cycles on a non-root rank never touch `last_counter`, and
never change the rank id. -/
theorem foldl_timerCycle_nonroot (cycles : List (String × ℚ × ℚ × ℚ × ℚ × Nat))
    (st : TimerCtx) (h : st.proc_id ≠ 0) :
    (cycles.foldl timerCycle st).last_counter = st.last_counter ∧
    (cycles.foldl timerCycle st).proc_id = st.proc_id := by
  induction cycles generalizing st with
  | nil => exact ⟨rfl, rfl⟩
  | cons c t ih =>
    have hstep : (timerCycle st c).last_counter = st.last_counter ∧
        (timerCycle st c).proc_id = st.proc_id := by
      simp [timerCycle, timer_pop, timer_push, h]
    have hne : (timerCycle st c).proc_id ≠ 0 := by rw [hstep.2]; exact h
    rw [List.foldl_cons]
    exact ⟨(ih _ hne).1.trans hstep.1, (ih _ hne).2.trans hstep.2⟩

/-- Claim C9: the function `timer_pop` updates `last_counter` only on rank 0: on any other
rank it leaves `last_counter` unchanged — so `last_elapsed` on a non-root
rank stays at its initial `0.0` through any number of push/pop cycles —
while `mOpName` is cleared on EVERY rank, root included. -/
theorem timer_pop_root_only (s : TimerCtx) (now mx av : ℚ) (nr : Nat)
    (pid np : Nat) (cycles : List (String × ℚ × ℚ × ℚ × ℚ × Nat))
    (hpid : pid ≠ 0) :
    (s.proc_id ≠ 0 → (timer_pop s now mx av nr).last_counter = s.last_counter) ∧
    (timer_pop s now mx av nr).mOpName = "" ∧
    last_elapsed (cycles.foldl timerCycle (initTimerCtx pid np)) = 0 := by
  refine ⟨fun hs => by simp [timer_pop, hs], by simp only [timer_pop]; split <;> rfl, ?_⟩
  show (cycles.foldl timerCycle (initTimerCtx pid np)).last_counter = 0
  rw [(foldl_timerCycle_nonroot cycles (initTimerCtx pid np) hpid).1]
  rfl

/-- Witness for C9: rank 1 of 2 runs one full cycle and `last_elapsed` is
still 0; `mOpName` is cleared both on rank 1 and on the root rank 0. -/
theorem timer_pop_root_only_witness :
    (timer_pop (initTimerCtx 1 2) 0 5 5 1).last_counter = 0 ∧
    (timer_pop (initTimerCtx 1 2) 0 5 5 1).mOpName = "" ∧
    (timer_pop (initTimerCtx 0 2) 0 5 5 1).mOpName = "" ∧
    last_elapsed ([("a", 0, 5, 5, 5, 1)].foldl timerCycle (initTimerCtx 1 2)) = 0 := by
  have h := timer_pop_root_only (initTimerCtx 1 2) 0 5 5 1 1 2
    [("a", 0, 5, 5, 5, 1)] (by decide)
  have h0 := timer_pop_root_only (initTimerCtx 0 2) 0 5 5 1 1 2 [] (by decide)
  exact ⟨(h.1 (by decide)).trans rfl, h.2.1, h0.2.1, h.2.2⟩

/-- Claim C6: the operation `create_tag` is idempotent-checked: after a successful creation
of `name` with width `w`, creating `name` with width `w` again succeeds and
returns the same handle and an unchanged store, while creating `name` with
any width `w2 ≠ w` fails with a configuration error. -/
theorem create_tag_idempotent_checked (ts ts2 : TagStore) (name : String)
    (w hnd : Nat) (d d2 d3 : List ℝ) (w2 : Nat) (hw2 : w2 ≠ w)
    (h : create_tag ts name w d = TagResult.ok hnd ts2) :
    create_tag ts2 name w d2 = TagResult.ok hnd ts2 ∧
    create_tag ts2 name w2 d3 = TagResult.configError := by
  unfold create_tag at h ⊢
  cases hfind : ts.tags.find? (fun t => t.name == name) with
  | some t =>
    rw [hfind] at h
    have h2 : (if t.width = w then TagResult.ok t.handle ts
        else TagResult.configError) = TagResult.ok hnd ts2 := h
    by_cases hw : t.width = w
    · rw [if_pos hw] at h2
      injection h2 with h1 hts
      subst h1; subst hts
      constructor
      · simp only [hfind, if_pos hw]
      · simp only [hfind]
        rw [if_neg fun hc => hw2 (hc.symm.trans hw)]
    · rw [if_neg hw] at h2
      cases h2
  | none =>
    rw [hfind] at h
    have h2 : TagResult.ok ts.nextHandle
        { tags := ({ name := name, width := w, default_value := d,
                     handle := ts.nextHandle } : TagEntry) :: ts.tags,
          nextHandle := ts.nextHandle + 1 } = TagResult.ok hnd ts2 := h
    injection h2 with h1 hts
    subst h1; subst hts
    have hpos : ((({ name := name, width := w, default_value := d,
                     handle := ts.nextHandle } : TagEntry)).name == name) = true := by
      simp
    constructor
    · simp [List.find?]
    · simp [List.find?, Ne.symm hw2]

/-- Empty tag store for the C6 witness. -/
def tsW0 : TagStore := { tags := [], nextHandle := 0 }

/-- Store after registering the scalar tag in `tsW0`. -/
def tsW1 : TagStore :=
  { tags := [{ name := scalar_tagname, width := 1, default_value := [], handle := 0 }],
    nextHandle := 1 }

/-- Witness for C6: create `scalar_variable` with width 1, re-create with
width 1 (same handle 0), re-create with width 5 (configuration error). -/
theorem create_tag_idempotent_checked_witness :
    create_tag tsW1 scalar_tagname 1 [] = TagResult.ok 0 tsW1 ∧
    create_tag tsW1 scalar_tagname 5 [] = TagResult.configError :=
  create_tag_idempotent_checked tsW0 tsW1 scalar_tagname 1 0 [] [] [] 5
    (by decide) rfl

/-- Claim C7, counterexample: A failing coordinate lookup inside
`compute_centroids` is NOT propagated: with a `get_coords` that fails on
the (nonempty) entity set, `create_sv_tags` still returns a success
result. -/
theorem centroid_failure_not_propagated :
    ((fun _ : Nat => (none : Option (ℝ × ℝ × ℝ))) 7 = none) ∧
    isOkE (create_sv_tags { tags := [], nextHandle := 0 } 3
      (fun _ => none) (1, 0, 0) [7]) = true :=
  ⟨rfl, rfl⟩

/-- Claim C7, amended: Operations guarded by `runchk` report failure through
an error-kind result; but coordinate-lookup failures inside
`compute_centroids` are only logged by `runchk_cont` and computation
continues: `compute_centroids` always returns a full-length centroid
vector with no error channel, and whether `create_sv_tags` succeeds is
entirely independent of the coordinate lookups. -/
theorem centroid_errors_swallowed (ts : TagStore) (W : Nat)
    (gc gc2 : Nat → Option (ℝ × ℝ × ℝ)) (node0 node02 : ℝ × ℝ × ℝ)
    (ents : List Nat) :
    (compute_centroids gc node0 ents).length = 2 * ents.length ∧
    isOkE (create_sv_tags ts W gc node0 ents) =
      isOkE (create_sv_tags ts W gc2 node02 ents) := by
  constructor
  · induction ents generalizing node0 with
    | nil => rfl
    | cons e rest ih =>
      show ((centroidStep gc node0 e).2.1 :: (centroidStep gc node0 e).2.2 ::
        compute_centroids gc (centroidStep gc node0 e).1 rest).length = 2 * (rest.length + 1)
      simp only [List.length_cons, ih]
      ring
  · cases h1 : create_tag ts scalar_tagname 1 [defSTagValue] with
    | configError => simp only [create_sv_tags, h1, isOkE]
    | ok hS ts1 =>
      cases h2 : create_tag ts1 vector_tagname W (List.replicate W defSTagValue) with
      | configError => simp only [create_sv_tags, h1, h2, isOkE]
      | ok hV ts2 => simp only [create_sv_tags, h1, h2, isOkE]

/-! ## Tag-value lemmas -/

/-- Value generated for component `i` of entity `e` by the vector-tag
`std::generate` loop: centroid of entity `p / W` and multiplier
`(p+1) % W + 1` at flat position `p = e*W + i`. -/
theorem vectorTagValues_getD (coords : List ℝ) (n W e i : Nat)
    (hW : 0 < W) (he : e < n) (hi : i < W) :
    (vectorTagValues coords n W).getD (e * W + i) 0 =
      (2 + Real.cos (coords.getD (2 * e) 0) * Real.cos (coords.getD (2 * e) 0) *
        Real.cos (2 * coords.getD (2 * e + 1) 0)) * (((i + 1) % W : Nat) + 1) := by
  have hp : e * W + i < n * W := by
    calc e * W + i < e * W + W := by omega
    _ = (e + 1) * W := by ring
    _ ≤ n * W := Nat.mul_le_mul_right W he
  have hlen : e * W + i < (vectorTagValues coords n W).length := by
    simpa [vectorTagValues] using hp
  rw [List.getD_eq_getElem _ _ hlen]
  unfold vectorTagValues
  rw [List.getElem_map, List.getElem_range]
  have hdiv : (e * W + i) / W = e := by
    rw [Nat.mul_comm e W, Nat.mul_add_div hW, Nat.div_eq_of_lt hi, Nat.add_zero]
  have hmod : (e * W + i + 1) % W = (i + 1) % W := by
    have h1 : e * W + i + 1 = W * e + (i + 1) := by ring
    rw [h1, Nat.mul_add_mod]
  rw [hdiv, hmod]
  unfold evaluate_function
  rw [if_neg (by decide : ¬(2 : ℤ) = 1), Nat.mul_comm e 2]

/-- Claim C10: The vector tag values set by `create_sv_tags`: component `i`
of entity `e` equals `(2 + cos(lon)^2 * cos(2 lat)) * ((i+1) % W + 1)` at
the entity's centroid; in particular component 0 carries multiplier 2 and
the last component `W - 1` carries multiplier 1 (not `W`). -/
theorem vector_tag_component_multipliers (coords : List ℝ) (n W e i : Nat)
    (hW : 0 < W) (he : e < n) (hi : i < W) :
    (vectorTagValues coords n W).getD (e * W + i) 0 =
      (2 + Real.cos (coords.getD (2 * e) 0) * Real.cos (coords.getD (2 * e) 0) *
        Real.cos (2 * coords.getD (2 * e + 1) 0)) * (((i + 1) % W : Nat) + 1) ∧
    (2 ≤ W →
      (vectorTagValues coords n W).getD (e * W) 0 =
        (2 + Real.cos (coords.getD (2 * e) 0) * Real.cos (coords.getD (2 * e) 0) *
          Real.cos (2 * coords.getD (2 * e + 1) 0)) * 2) ∧
    (vectorTagValues coords n W).getD (e * W + (W - 1)) 0 =
      (2 + Real.cos (coords.getD (2 * e) 0) * Real.cos (coords.getD (2 * e) 0) *
        Real.cos (2 * coords.getD (2 * e + 1) 0)) * 1 := by
  refine ⟨vectorTagValues_getD coords n W e i hW he hi, ?_, ?_⟩
  · intro hW2
    have h0 := vectorTagValues_getD coords n W e 0 hW he hW
    have hm : ((0 + 1) % W : Nat) = 1 := Nat.mod_eq_of_lt hW2
    rw [Nat.add_zero] at h0
    rw [h0, hm]
    norm_num
  · have hlast := vectorTagValues_getD coords n W e (W - 1) hW he (by omega)
    have hm : ((W - 1 + 1) % W : Nat) = 0 := by
      have h1 : W - 1 + 1 = W := by omega
      rw [h1, Nat.mod_self]
    rw [hlast, hm]
    norm_num

/-- Witness for C10: one entity with centroid `(0, 0)`, width 3; the last
component (`i = 2`) gets multiplier 1, so its value is `(2 + 1) * 1 = 3`. -/
theorem vector_tag_component_multipliers_witness :
    (vectorTagValues [0, 0] 1 3).getD 2 0 = 3 := by
  have h := (vector_tag_component_multipliers [0, 0] 1 3 0 2 (by decide) (by decide)
    (by decide)).1
  norm_num [List.getD_cons_zero, List.getD_cons_succ, Real.cos_zero] at h
  exact h

/-- Creating a fresh tag name leaves `find?` for any other name
unchanged. -/
theorem create_tag_find_other (ts ts2 : TagStore) (nm nm2 : String)
    (w hnd : Nat) (d : List ℝ)
    (h : create_tag ts nm w d = TagResult.ok hnd ts2)
    (hne : (nm == nm2) = false) :
    ts2.tags.find? (fun t => t.name == nm2) =
      ts.tags.find? (fun t => t.name == nm2) := by
  unfold create_tag at h
  cases hfind : ts.tags.find? (fun t => t.name == nm) with
  | some t =>
    rw [hfind] at h
    have h2 : (if t.width = w then TagResult.ok t.handle ts
        else TagResult.configError) = TagResult.ok hnd ts2 := h
    by_cases hw : t.width = w
    · rw [if_pos hw] at h2
      injection h2 with h1 hts
      subst hts
      rfl
    · rw [if_neg hw] at h2
      cases h2
  | none =>
    rw [hfind] at h
    have h2 : TagResult.ok ts.nextHandle
        { tags := ({ name := nm, width := w, default_value := d,
                     handle := ts.nextHandle } : TagEntry) :: ts.tags,
          nextHandle := ts.nextHandle + 1 } = TagResult.ok hnd ts2 := h
    injection h2 with h1 hts
    subst hts
    exact List.find?_cons_of_neg _ (by simp [hne])

/-- Value generated at position `i` by the scalar-tag `std::generate`
loop: `evaluate_function` with the default `type = 1`, `multiplier = 1` at
the centroid stored at offset `2 i`. -/
theorem scalarTagValues_getD (coords : List ℝ) (n i : Nat) (hi : i < n) :
    (scalarTagValues coords n).getD i 0 =
      2 + Real.sin (2 * coords.getD (2 * i + 1) 0) ^ 16 *
        Real.cos (16 * coords.getD (2 * i) 0) := by
  have hlen : i < (scalarTagValues coords n).length := by
    simpa [scalarTagValues] using hi
  rw [List.getD_eq_getElem _ _ hlen]
  unfold scalarTagValues
  rw [List.getElem_map, List.getElem_range]
  unfold evaluate_function
  rw [if_pos rfl, mul_one]

/-- The scalar field `2 + sin(2 lat)^16 cos(16 lon)` lies in `[1, 3]`, so
it can never hit the default `-1`. -/
theorem scalar_field_ne_neg_one (lon lat : ℝ) :
    2 + Real.sin (2 * lat) ^ 16 * Real.cos (16 * lon) ≠ -1 := by
  have h16 : |Real.sin (2 * lat) ^ 16| ≤ 1 := by
    rw [abs_pow]
    exact pow_le_one₀ (abs_nonneg _) (Real.abs_sin_le_one _)
  have hprod : |Real.sin (2 * lat) ^ 16 * Real.cos (16 * lon)| ≤ 1 := by
    rw [abs_mul]
    exact mul_le_one₀ h16 (abs_nonneg _) (Real.abs_cos_le_one _)
  have hlo := (abs_le.mp hprod).1
  intro heq
  linarith

/-- Claim C5: When `create_sv_tags` succeeds from a store with no prior
`scalar_variable` tag, the scalar tag is registered with width 1 and
default value `-1.0`, and the value stored for the `i`-th entity of the
set is `2 + sin(2 lat)^16 cos(16 lon)` at that entity's centroid — never
the default. -/
theorem scalar_tag_owned_values (ts : TagStore) (W : Nat)
    (gc : Nat → Option (ℝ × ℝ × ℝ)) (node0 : ℝ × ℝ × ℝ) (ents : List Nat)
    (out : TagStore × Nat × Nat × List ℝ × List ℝ) (i : Nat)
    (hok : create_sv_tags ts W gc node0 ents = Except.ok out)
    (hfresh : ts.tags.find? (fun t => t.name == scalar_tagname) = none)
    (hi : i < ents.length) :
    defSTagValue = -1 ∧
    out.2.2.2.1 = scalarTagValues (compute_centroids gc node0 ents) ents.length ∧
    out.1.tags.find? (fun t => t.name == scalar_tagname) =
      some { name := scalar_tagname, width := 1, default_value := [defSTagValue],
             handle := out.2.1 } ∧
    (scalarTagValues (compute_centroids gc node0 ents) ents.length).getD i 0 =
      2 + Real.sin (2 * (compute_centroids gc node0 ents).getD (2 * i + 1) 0) ^ 16 *
        Real.cos (16 * (compute_centroids gc node0 ents).getD (2 * i) 0) ∧
    (scalarTagValues (compute_centroids gc node0 ents) ents.length).getD i 0 ≠
      defSTagValue := by
  have hscal : create_tag ts scalar_tagname 1 [defSTagValue] =
      TagResult.ok ts.nextHandle
        { tags := ({ name := scalar_tagname, width := 1,
                     default_value := [defSTagValue],
                     handle := ts.nextHandle } : TagEntry) :: ts.tags,
          nextHandle := ts.nextHandle + 1 } := by
    unfold create_tag
    rw [hfresh]
  simp only [create_sv_tags, hscal] at hok
  cases hvec : create_tag
      { tags := ({ name := scalar_tagname, width := 1,
                   default_value := [defSTagValue],
                   handle := ts.nextHandle } : TagEntry) :: ts.tags,
        nextHandle := ts.nextHandle + 1 }
      vector_tagname W (List.replicate W defSTagValue) with
  | configError =>
    rw [hvec] at hok
    cases hok
  | ok hV ts2 =>
    rw [hvec] at hok
    injection hok with htup
    subst htup
    refine ⟨rfl, rfl, ?_, scalarTagValues_getD _ _ _ hi, ?_⟩
    · rw [create_tag_find_other _ _ _ _ _ _ _ hvec (by decide)]
      exact List.find?_cons_of_pos _ (by simp)
    · rw [scalarTagValues_getD _ _ _ hi]
      show _ ≠ defSTagValue
      unfold defSTagValue
      exact scalar_field_ne_neg_one _ _

/-- Witness for C5: one entity with a successful coordinate lookup, fresh
store; the stored scalar value differs from the default `-1`. -/
theorem scalar_tag_owned_values_witness :
    defSTagValue = -1 ∧
    (scalarTagValues (compute_centroids (fun _ => some (1, 0, 0)) (1, 0, 0) [7])
      1).getD 0 0 ≠ defSTagValue := by
  have h := scalar_tag_owned_values { tags := [], nextHandle := 0 } 3
    (fun _ => some (1, 0, 0)) (1, 0, 0) [7] _ 0 rfl rfl (by decide)
  exact ⟨h.1, h.2.2.2.2⟩

/-- Unpacking a buffer whose every entry for `e` carries the value `v`,
and which does mention `e`, stores `v` in `e`'s slot. -/
theorem applyBuffer_uniform {V : Type} (val : Nat → V) (buf : List (Nat × V))
    (e : Nat) (v : V) (hu : ∀ p ∈ buf, p.1 = e → p.2 = v)
    (hm : ∃ p ∈ buf, p.1 = e) : applyBuffer val buf e = v := by
  induction buf generalizing val with
  | nil =>
    rcases hm with ⟨p, hp, _⟩
    cases hp
  | cons p t ih =>
    show applyBuffer (fun x => if x = p.1 then p.2 else val x) t e = v
    by_cases ht : ∃ q ∈ t, q.1 = e
    · exact ih _ (fun q hq => hu q (List.mem_cons_of_mem _ hq)) ht
    · have hpe : p.1 = e := by
        rcases hm with ⟨q, hq, hqe⟩
        rcases List.mem_cons.mp hq with rfl | hq2
        · exact hqe
        · exact absurd ⟨q, hq2, hqe⟩ ht
      rw [applyBuffer_of_no_key _ t e fun q hq hqe => ht ⟨q, hq, hqe⟩]
      rw [if_pos hpe.symm]
      exact hu p (List.mem_cons_self _ _) hpe

/-- Unpacking a list of buffers all of whose entries for `e` carry `v`,
at least one of which mentions `e`, stores `v` in `e`'s slot. -/
theorem foldl_applyBuffer_uniform {V : Type} (bufs : List (List (Nat × V)))
    (val : Nat → V) (e : Nat) (v : V)
    (hu : ∀ b ∈ bufs, ∀ p ∈ b, p.1 = e → p.2 = v)
    (hm : ∃ b ∈ bufs, ∃ p ∈ b, p.1 = e) :
    bufs.foldl applyBuffer val e = v := by
  induction bufs generalizing val with
  | nil =>
    rcases hm with ⟨b, hb, _⟩
    cases hb
  | cons b t ih =>
    show t.foldl applyBuffer (applyBuffer val b) e = v
    by_cases ht : ∃ b2 ∈ t, ∃ p ∈ b2, p.1 = e
    · exact ih _ (fun b2 hb2 => hu b2 (List.mem_cons_of_mem _ hb2)) ht
    · have hb : ∃ p ∈ b, p.1 = e := by
        rcases hm with ⟨b2, hb2, hp⟩
        rcases List.mem_cons.mp hb2 with rfl | hb3
        · exact hp
        · exact absurd ⟨b2, hb3, hp⟩ ht
      have hnone : ∀ b2 ∈ t, ∀ p ∈ b2, p.1 ≠ e := by
        intro b2 hb2 p hp hpe
        exact ht ⟨b2, hb2, p, hp, hpe⟩
      rw [foldl_applyBuffer_of_no_key t _ e hnone]
      exact applyBuffer_uniform _ _ _ _ (hu b (List.mem_cons_self _ _)) hb

/-- Claim C1: After `exchange(tag, S)`, every rank `r` holding a non-owning
(ghost or shared) copy of an entity `e ∈ S` reads exactly the value the
owning rank `o = owner e` held for that tag when `exchange` was called. -/
theorem exchange_ghost_gets_owner_value {V : Type} (m : HaloMesh V)
    (S : Nat → Bool) (e r : Nat) (he : e ∈ m.entities) (hS : S e = true)
    (hr : m.holds r e = true) (hro : r ≠ m.owner e)
    (how : m.owner e ∈ m.ranks) :
    (exchange S m).value r e = m.value (m.owner e) e := by
  show (m.ranks.map fun o => packFor m S o r).foldl applyBuffer (m.value r) e = _
  apply foldl_applyBuffer_uniform
  · intro b hb p hp hpe
    rcases List.mem_map.mp hb with ⟨o, _, rfl⟩
    rcases List.mem_map.mp hp with ⟨e2, he2, rfl⟩
    rcases List.mem_filter.mp he2 with ⟨_, hpred⟩
    simp only [Bool.and_eq_true, beq_iff_eq] at hpred
    simp only at hpe
    subst hpe
    rw [hpred.1.1.2]
  · refine ⟨packFor m S (m.owner e) r, List.mem_map_of_mem _ how, (e, m.value (m.owner e) e), ?_, rfl⟩
    apply List.mem_map_of_mem
    rw [List.mem_filter]
    refine ⟨he, ?_⟩
    simp only [Bool.and_eq_true, beq_iff_eq, bne_iff_ne, ne_eq]
    exact ⟨⟨⟨hS, trivial⟩, hr⟩, hro⟩

/-- A two-rank mesh where rank 1 holds a ghost copy of entity 0 owned by
rank 0, used as a concrete input for the exchange witness. -/
def ghostMeshW : HaloMesh Int :=
  { entities := [0], ranks := [0, 1], owner := fun _ => 0,
    holds := fun r e => decide (e = 0 ∧ r ≤ 1),
    value := fun r _ => if r = 0 then 5 else 0 }

/-- Witness for C1: after the exchange, rank 1's ghost copy of entity 0
carries the owner's value. -/
theorem exchange_ghost_gets_owner_value_witness :
    (exchange (fun _ => true) ghostMeshW).value 1 0 =
      ghostMeshW.value (ghostMeshW.owner 0) 0 :=
  exchange_ghost_gets_owner_value ghostMeshW (fun _ => true) 0 1
    (by decide) rfl (by decide) (by decide) (by decide)

/-! ## Driver ordering lemmas -/

/-- Every operation in the ghost-setup loop has phase 1. -/
theorem phase_mem_ghostLoop {x : DriverOp} {gl : Nat} (h : x ∈ ghostLoop gl) :
    phase x = 1 := by
  unfold ghostLoop at h
  rw [List.mem_flatten] at h
  rcases h with ⟨l, hl, hx⟩
  rcases List.mem_map.mp hl with ⟨i, _, rfl⟩
  rcases List.mem_append.mp hx with h1 | h2
  · rcases List.mem_singleton.mp h1 with rfl
    rfl
  · split at h2
    · rcases List.mem_singleton.mp h2 with rfl
      rfl
    · cases h2

/-- A list of operations of one common phase is phase-sorted. -/
theorem pairwise_phase_of_const {l : List DriverOp} {c : Nat}
    (h : ∀ x ∈ l, phase x = c) :
    l.Pairwise fun a b => phase a ≤ phase b := by
  induction l with
  | nil => exact List.Pairwise.nil
  | cons a t ih =>
    refine List.Pairwise.cons (fun b hb => ?_) (ih fun x hx => h x (List.mem_cons_of_mem _ hx))
    rw [h a (List.mem_cons_self _ _), h b (List.mem_cons_of_mem _ hb)]

/-- The trace of `main` is sorted by phase: the driver never returns to an
earlier phase. -/
theorem driverTrace_phase_pairwise (gl n : Nat) (dbg : Bool) (pid : Nat) :
    (driverTrace gl n dbg pid).Pairwise fun a b => phase a ≤ phase b := by
  have hbound : ∀ x : DriverOp, phase x ≤ 8 := by
    intro x
    cases x <;> simp [phase]
  -- phase facts for the optional blocks
  have hpre : ∀ x ∈ (if dbg ∧ pid = 0 then [DriverOp.writeFilePre] else []),
      phase x = 4 := by
    intro x hx
    split at hx
    · rcases List.mem_singleton.mp hx with rfl; rfl
    · cases hx
  have hpost : ∀ x ∈ (if dbg ∧ pid = 0 then [DriverOp.writeFilePost] else []),
      phase x = 7 := by
    intro x hx
    split at hx
    · rcases List.mem_singleton.mp hx with rfl; rfl
    · cases hx
  have hfin : ∀ x ∈ (if dbg then [DriverOp.writeFileFinal] else []),
      phase x = 8 := by
    intro x hx
    split at hx
    · rcases List.mem_singleton.mp hx with rfl; rfl
    · cases hx
  have hrepS : ∀ x ∈ List.replicate n DriverOp.exchangeScalarTag, phase x = 5 := by
    intro x hx
    rcases List.eq_of_mem_replicate hx with rfl; rfl
  have hrepV : ∀ x ∈ List.replicate n DriverOp.exchangeVectorTag, phase x = 6 := by
    intro x hx
    rcases List.eq_of_mem_replicate hx with rfl; rfl
  -- lower bounds on the suffixes, built right to left
  unfold driverTrace
  simp only [List.append_assoc]
  set fin := (if dbg then [DriverOp.writeFileFinal] else []) with hfin_def
  set post := (if dbg ∧ pid = 0 then [DriverOp.writeFilePost] else []) with hpost_def
  set pre := (if dbg ∧ pid = 0 then [DriverOp.writeFilePre] else []) with hpre_def
  set repS := List.replicate n DriverOp.exchangeScalarTag with hrepS_def
  set repV := List.replicate n DriverOp.exchangeVectorTag with hrepV_def
  have L7 : ∀ y ∈ post ++ fin, 7 ≤ phase y := by
    intro y hy
    rcases List.mem_append.mp hy with h | h
    · rw [hpost y h]
    · rw [hfin y h]; omega
  have L6 : ∀ y ∈ repV ++ (post ++ fin), 6 ≤ phase y := by
    intro y hy
    rcases List.mem_append.mp hy with h | h
    · rw [hrepV y h]
    · exact le_trans (by omega) (L7 y h)
  have L5 : ∀ y ∈ repS ++ (repV ++ (post ++ fin)), 5 ≤ phase y := by
    intro y hy
    rcases List.mem_append.mp hy with h | h
    · rw [hrepS y h]
    · exact le_trans (by omega) (L6 y h)
  have L4 : ∀ y ∈ pre ++ (repS ++ (repV ++ (post ++ fin))), 4 ≤ phase y := by
    intro y hy
    rcases List.mem_append.mp hy with h | h
    · rw [hpre y h]
    · exact le_trans (by omega) (L5 y h)
  have L2 : ∀ y ∈ [DriverOp.getOwnedEntities, DriverOp.createSvTags] ++
      (pre ++ (repS ++ (repV ++ (post ++ fin)))), 2 ≤ phase y := by
    intro y hy
    rcases List.mem_append.mp hy with h | h
    · rcases List.mem_cons.mp h with rfl | h2
      · exact le_refl _
      · rcases List.mem_singleton.mp h2 with rfl
        simp [phase]
    · exact le_trans (by omega) (L4 y h)
  have L1 : ∀ y ∈ ghostLoop gl ++ ([DriverOp.getOwnedEntities, DriverOp.createSvTags] ++
      (pre ++ (repS ++ (repV ++ (post ++ fin))))), 1 ≤ phase y := by
    intro y hy
    rcases List.mem_append.mp hy with h | h
    · rw [phase_mem_ghostLoop h]
    · exact le_trans (by omega) (L2 y h)
  -- assemble, innermost first
  have P7 : (post ++ fin).Pairwise fun a b => phase a ≤ phase b := by
    rw [List.pairwise_append]
    exact ⟨pairwise_phase_of_const hpost, pairwise_phase_of_const hfin,
      fun x hx y hy => by rw [hpost x hx, hfin y hy]; omega⟩
  have P6 : (repV ++ (post ++ fin)).Pairwise fun a b => phase a ≤ phase b := by
    rw [List.pairwise_append]
    exact ⟨pairwise_phase_of_const hrepV, P7,
      fun x hx y hy => by rw [hrepV x hx]; exact le_trans (by omega) (L7 y hy)⟩
  have P5 : (repS ++ (repV ++ (post ++ fin))).Pairwise fun a b => phase a ≤ phase b := by
    rw [List.pairwise_append]
    exact ⟨pairwise_phase_of_const hrepS, P6,
      fun x hx y hy => by rw [hrepS x hx]; exact le_trans (by omega) (L6 y hy)⟩
  have P4 : (pre ++ (repS ++ (repV ++ (post ++ fin)))).Pairwise
      fun a b => phase a ≤ phase b := by
    rw [List.pairwise_append]
    exact ⟨pairwise_phase_of_const hpre, P5,
      fun x hx y hy => by rw [hpre x hx]; exact le_trans (by omega) (L5 y hy)⟩
  have P2 : ([DriverOp.getOwnedEntities, DriverOp.createSvTags] ++
      (pre ++ (repS ++ (repV ++ (post ++ fin))))).Pairwise
      fun a b => phase a ≤ phase b := by
    rw [List.pairwise_append]
    refine ⟨?_, P4, fun x hx y hy => ?_⟩
    · refine List.Pairwise.cons (fun b hb => ?_) ?_
      · rcases List.mem_singleton.mp hb with rfl
        simp [phase]
      · exact List.pairwise_singleton _ _
    · rcases List.mem_cons.mp hx with rfl | h2
      · exact le_trans (by decide) (L4 y hy)
      · rcases List.mem_singleton.mp h2 with rfl
        exact le_trans (by decide) (L4 y hy)
  have P1 : (ghostLoop gl ++ ([DriverOp.getOwnedEntities, DriverOp.createSvTags] ++
      (pre ++ (repS ++ (repV ++ (post ++ fin)))))).Pairwise
      fun a b => phase a ≤ phase b := by
    rw [List.pairwise_append]
    refine ⟨pairwise_phase_of_const fun x hx => phase_mem_ghostLoop hx, P2,
      fun x hx y hy => ?_⟩
    rw [phase_mem_ghostLoop hx]
    exact le_trans (by omega) (L2 y hy)
  refine List.Pairwise.cons (fun y hy => ?_) P1
  exact Nat.zero_le _

/-- In a phase-sorted trace, an operation with strictly smaller phase
occurs strictly earlier. -/
theorem phase_lt_index {t : List DriverOp}
    (hp : t.Pairwise fun a b => phase a ≤ phase b) (i j : Fin t.length)
    (hlt : phase (t.get i) < phase (t.get j)) : (i : Nat) < (j : Nat) := by
  rcases lt_trichotomy (i : Nat) (j : Nat) with h | h | h
  · exact h
  · rw [Fin.ext h] at hlt
    exact absurd hlt (lt_irrefl _)
  · have h2 := List.pairwise_iff_get.mp hp j i h
    exact absurd hlt (not_lt.mpr h2)

/-- The debug writes appear in the trace only under the flags that guard
them in `Driver.cpp`. -/
theorem mem_driverTrace_debug_flags {gl n : Nat} {dbg : Bool} {pid : Nat}
    {x : DriverOp} (hx : x ∈ driverTrace gl n dbg pid) :
    (x = DriverOp.writeFilePre → dbg = true ∧ pid = 0) ∧
    (x = DriverOp.writeFilePost → dbg = true ∧ pid = 0) ∧
    (x = DriverOp.writeFileFinal → dbg = true) := by
  unfold driverTrace at hx
  simp only [List.append_assoc, List.mem_append] at hx
  rcases hx with h | h | h | h | h | h | h | h
  · rcases List.mem_singleton.mp h with rfl
    refine ⟨fun hc => ?_, fun hc => ?_, fun hc => ?_⟩ <;> cases hc
  · refine ⟨?_, ?_, ?_⟩ <;> intro hc <;> subst hc <;>
      exact absurd (phase_mem_ghostLoop h) (by decide)
  · rcases List.mem_cons.mp h with rfl | h2
    · refine ⟨fun hc => ?_, fun hc => ?_, fun hc => ?_⟩ <;> cases hc
    · rcases List.mem_singleton.mp h2 with rfl
      refine ⟨fun hc => ?_, fun hc => ?_, fun hc => ?_⟩ <;> cases hc
  · by_cases hc : dbg = true ∧ pid = 0
    · rw [if_pos hc] at h
      rcases List.mem_singleton.mp h with rfl
      refine ⟨fun _ => hc, fun hc2 => ?_, fun hc2 => ?_⟩ <;> cases hc2
    · rw [if_neg hc] at h
      cases h
  · rcases List.eq_of_mem_replicate h with rfl
    refine ⟨fun hc => ?_, fun hc => ?_, fun hc => ?_⟩ <;> cases hc
  · rcases List.eq_of_mem_replicate h with rfl
    refine ⟨fun hc => ?_, fun hc => ?_, fun hc => ?_⟩ <;> cases hc
  · by_cases hc : dbg = true ∧ pid = 0
    · rw [if_pos hc] at h
      rcases List.mem_singleton.mp h with rfl
      refine ⟨fun hc2 => ?_, fun _ => hc, fun hc2 => ?_⟩ <;> cases hc2
    · rw [if_neg hc] at h
      cases h
  · by_cases hc : dbg = true
    · rw [if_pos hc] at h
      rcases List.mem_singleton.mp h with rfl
      refine ⟨fun hc2 => ?_, fun hc2 => ?_, fun _ => hc⟩ <;> cases hc2
    · rw [if_neg hc] at h
      cases h

/-- Phase bounds for the tag-exchange operations. -/
theorem isTagExchange_phase {x : DriverOp} (h : isTagExchange x = true) :
    5 ≤ phase x ∧ phase x ≤ 6 := by
  cases x <;> simp_all [isTagExchange, phase]

/-- Phase of a ghost-construction call. -/
theorem isGhostCall_phase {x : DriverOp} (h : isGhostCall x = true) :
    phase x = 1 := by
  cases x <;> simp_all [isGhostCall, phase]

/-- Claim C8, counterexample: With the debug flag set on rank 0, the driver
writes a debug snapshot (`writeFilePre`, the `*_rank0_pre.h5m` dump)
strictly BEFORE the first tag exchange, so dumping does not happen only
after the exchanges. -/
theorem driver_dumps_before_exchange :
    DriverOp.writeFilePre ∈ driverTrace 1 1 true 0 ∧
    DriverOp.exchangeScalarTag ∈ driverTrace 1 1 true 0 ∧
    (driverTrace 1 1 true 0).indexOf DriverOp.writeFilePre <
      (driverTrace 1 1 true 0).indexOf DriverOp.exchangeScalarTag := by
  refine ⟨?_, ?_, ?_⟩ <;> decide

/-- Claim C8, amended: The driver's core operations occur in the fixed
order load → ghost construction (with thin-layer correction) → tag
creation and owned-value setting (`create_sv_tags`) → tag exchanges →
post-exchange dumps; the optional debug dumps are the only deviation from
the claim as written: the rank-0 pre-exchange snapshot sits between tag
creation and the exchanges, and all dumps require the debug flag. -/
theorem driver_operation_order (gl n : Nat) (dbg : Bool) (pid : Nat)
    (i j : Fin (driverTrace gl n dbg pid).length) :
    (driverTrace gl n dbg pid).head? = some DriverOp.loadFile ∧
    ((isGhostCall ((driverTrace gl n dbg pid).get i) = true ∨
        (driverTrace gl n dbg pid).get i = DriverOp.correctThinGhostLayers) →
      (driverTrace gl n dbg pid).get j = DriverOp.createSvTags →
      (i : Nat) < (j : Nat)) ∧
    ((driverTrace gl n dbg pid).get i = DriverOp.createSvTags →
      isTagExchange ((driverTrace gl n dbg pid).get j) = true →
      (i : Nat) < (j : Nat)) ∧
    (isTagExchange ((driverTrace gl n dbg pid).get i) = true →
      ((driverTrace gl n dbg pid).get j = DriverOp.writeFilePost ∨
        (driverTrace gl n dbg pid).get j = DriverOp.writeFileFinal) →
      (i : Nat) < (j : Nat)) ∧
    ((driverTrace gl n dbg pid).get i = DriverOp.writeFilePre →
      (dbg = true ∧ pid = 0) ∧
      ((driverTrace gl n dbg pid).get j = DriverOp.createSvTags →
        (j : Nat) < (i : Nat)) ∧
      (isTagExchange ((driverTrace gl n dbg pid).get j) = true →
        (i : Nat) < (j : Nat))) ∧
    (((driverTrace gl n dbg pid).get i = DriverOp.writeFilePost ∨
        (driverTrace gl n dbg pid).get i = DriverOp.writeFileFinal) →
      dbg = true) := by
  have hp := driverTrace_phase_pairwise gl n dbg pid
  refine ⟨rfl, ?_, ?_, ?_, ?_, ?_⟩
  · intro hgi hcj
    apply phase_lt_index hp
    rw [hcj]
    rcases hgi with hg | hg
    · rw [isGhostCall_phase hg]
      decide
    · rw [hg]
      decide
  · intro hci hej
    apply phase_lt_index hp
    rw [hci]
    have h5 := (isTagExchange_phase hej).1
    have h3 : phase DriverOp.createSvTags = 3 := rfl
    omega
  · intro hei hdj
    apply phase_lt_index hp
    have h6 := (isTagExchange_phase hei).2
    rcases hdj with hd | hd <;> rw [hd]
    · have h7 : phase DriverOp.writeFilePost = 7 := rfl
      omega
    · have h8 : phase DriverOp.writeFileFinal = 8 := rfl
      omega
  · intro hpi
    have hmem : (driverTrace gl n dbg pid).get i ∈ driverTrace gl n dbg pid :=
      List.get_mem _ _ i.isLt
    rw [hpi] at hmem
    refine ⟨(mem_driverTrace_debug_flags hmem).1 rfl, fun hcj => ?_, fun hej => ?_⟩
    · apply phase_lt_index hp
      rw [hcj, hpi]
      decide
    · apply phase_lt_index hp
      rw [hpi]
      have h5 := (isTagExchange_phase hej).1
      have h4 : phase DriverOp.writeFilePre = 4 := rfl
      omega
  · intro hdi
    have hmem : (driverTrace gl n dbg pid).get i ∈ driverTrace gl n dbg pid :=
      List.get_mem _ _ i.isLt
    rcases hdi with hd | hd
    · rw [hd] at hmem
      exact ((mem_driverTrace_debug_flags hmem).2.1 rfl).1
    · rw [hd] at hmem
      exact (mem_driverTrace_debug_flags hmem).2.2 rfl

/-- Witness for the amended C8 at a concrete configuration: trace
`[load, ghost 1, getOwned, create, pre, exScalar, exVector, post, final]`;
the ghost call (index 1) precedes tag creation (index 3), which precedes
the scalar exchange (index 5). -/
theorem driver_operation_order_witness :
    (driverTrace 1 1 true 0).head? = some DriverOp.loadFile ∧
    (1 : Nat) < (3 : Nat) ∧ (3 : Nat) < (5 : Nat) := by
  have h := driver_operation_order 1 1 true 0 ⟨1, by decide⟩ ⟨3, by decide⟩
  have h2 := driver_operation_order 1 1 true 0 ⟨3, by decide⟩ ⟨5, by decide⟩
  exact ⟨h.1, h.2.1 (Or.inl (by decide)) (by decide), h2.2.2.1 (by decide) (by decide)⟩
